import Mathlib

/-!
# Verification of the scatter-gather cursor-establishment coordinator

Shallow embedding of `mongo::establishCursors` (src/unnamed/part_000,
`mongo/s/query/establish_cursors.cpp`).  The surrounding infrastructure
(the `AsyncRequestsSender` dispatch engine, BSON encoding/decoding, the
task executor) is external to the repository; it is modelled as an
oracle: the sequence of completions the engine will deliver, in arrival
order, is an explicit input (`List ArsEvent`), and the status returned
by each fire-and-forget `scheduleRemoteCommand` submission is an
explicit input function whose value the coordinator discards, exactly
as the C++ does with `status_with_transitional_ignore()`.

Dereferencing an engaged-empty `boost::optional` (`*response.shardHostAndPort`
when no host was recorded) is undefined behaviour in the source; it is
modelled as a distinguished `badDeref`/`ub` outcome that no `catch`
handler can intercept.
-/

namespace CMongo

/-- MongoDB error codes, abstracted as naturals. -/
abbrev ErrorCode := Nat

abbrev ShardId := String

abbrev HostAndPort := String

/-- A namespace string `db.coll`; `nss.db()` is the `db` field. -/
structure NamespaceString where
  db : String
  coll : String
deriving DecidableEq, Repr

/-- Parsed cursor metadata: the payload of a successful open-cursor reply. -/
structure CursorResponse where
  nss : NamespaceString
  cursorId : Int
  initialBatch : List Nat
deriving DecidableEq, Repr

/-- Modelled from the spec: `BSONObj`, the opaque command/response payload
produced and consumed by the external encoding layer (the document/value
encoding layer is out of scope of this repository).  A payload either
decodes to cursor metadata, or fails to decode carrying an embedded error
code, or is a close-cursor (`killCursors`) command produced by
`KillCursorsRequest::toBSON`. -/
inductive BSONObj where
  | cursorReply (cr : CursorResponse)
  | malformed (code : ErrorCode)
  | killCursors (nss : NamespaceString) (cursorIds : List Int)
deriving DecidableEq, Repr

/-- Modelled from the spec: `CursorResponse::parseFromBSON`
(`mongo/db/query/cursor_response.cpp` is not part of this repository):
decodes a payload into cursor metadata, or fails with the error code
embedded in the payload (a `killCursors` command body never decodes as a
cursor reply; 9 is `FailedToParse`). -/
def CursorResponse.parseFromBSON : BSONObj → Except ErrorCode CursorResponse
  | .cursorReply cr => .ok cr
  | .malformed code => .error code
  | .killCursors _ _ => .error 9

/-- The type `executor::RemoteCommandResponse`: the raw delivered payload. -/
structure RemoteCommandResponse where
  data : BSONObj
deriving DecidableEq, Repr

instance {ε α : Type} [DecidableEq ε] [DecidableEq α] : DecidableEq (Except ε α) := fun a b =>
  match a, b with
  | .ok x, .ok y =>
    if h : x = y then .isTrue (by rw [h]) else .isFalse (by simp [h])
  | .error e, .error f =>
    if h : e = f then .isTrue (by rw [h]) else .isFalse (by simp [h])
  | .ok _, .error _ => .isFalse (by simp)
  | .error _, .ok _ => .isFalse (by simp)

/-- The type `AsyncRequestsSender::Response`: one completion handed back by the
dispatch engine.  `swResponse` is the transport outcome; `shardHostAndPort`
is present only if a connection was actually established. -/
structure Response where
  shardId : ShardId
  swResponse : Except ErrorCode RemoteCommandResponse
  shardHostAndPort : Option HostAndPort
deriving DecidableEq, Repr

/-- One event observed at a call of `ars.next()`: either a completion is
returned, or `next()` itself raises a `DBException` with the given code
(e.g. interruption of the operation context while blocked). -/
inductive ArsEvent where
  | resp (r : Response)
  | throwEv (code : ErrorCode)
deriving DecidableEq, Repr

/-- The type `ClusterClientCursorParams::RemoteCursor`: the established-cursor
record accumulated by the coordinator. -/
structure RemoteCursor where
  shardId : ShardId
  hostAndPort : HostAndPort
  cursorResponse : CursorResponse
deriving DecidableEq, Repr

/-- The request `KillCursorsRequest(nss, ids)`. -/
structure KillCursorsRequest where
  nss : NamespaceString
  cursorIds : List Int
deriving DecidableEq, Repr

/-- The encoding `KillCursorsRequest::toBSON`. -/
def KillCursorsRequest.toBSON (kr : KillCursorsRequest) : BSONObj :=
  .killCursors kr.nss kr.cursorIds

/-- The type `executor::RemoteCommandRequest` (the operation-context handle is
dropped: it carries no semantics in this model). -/
structure RemoteCommandRequest where
  target : HostAndPort
  dbname : String
  cmdObj : BSONObj
deriving DecidableEq, Repr

/-- The type `AsyncRequestsSender::Request`. -/
structure AsyncRequest where
  shardId : ShardId
  cmdObj : BSONObj
deriving DecidableEq, Repr

/-- The request-construction loop at the top of `establishCursors`. -/
def buildRequests (remotes : List (ShardId × BSONObj)) : List AsyncRequest :=
  remotes.map fun remote => ⟨remote.1, remote.2⟩

/-- Observable actions of the coordinator, in program order: a call of
`ars.next()` (recording what it yielded), the call of `ars.stopRetrying()`,
and each fire-and-forget `scheduleRemoteCommand` of a killCursors command. -/
inductive TraceEv where
  | next (ev : ArsEvent)
  | stopRetrying
  | scheduleKill (req : RemoteCommandRequest)
deriving DecidableEq, Repr

/-- Outcome of handling one completion inside the collection loop body:
an established cursor, a thrown `DBException` code (from either
`uassertStatusOK` on the transport status or on the parse status), or the
undefined dereference of a missing `shardHostAndPort`. -/
inductive StepResult where
  | established (rc : RemoteCursor)
  | thrown (code : ErrorCode)
  | badDeref
deriving DecidableEq, Repr

/-- The body of the collection loop for a delivered response: the uasserts
happen before the optional `shardHostAndPort` is accessed. -/
def collectStep (r : Response) : StepResult :=
  match r.swResponse with
  | .error c => .thrown c
  | .ok rcr =>
    match CursorResponse.parseFromBSON rcr.data with
    | .error c => .thrown c
    | .ok cr =>
      match r.shardHostAndPort with
      | some hp => .established ⟨r.shardId, hp, cr⟩
      | none => .badDeref

/-- Handling of one `ars.next()` event: a throw from `next()` itself and a
throw from the uasserts land in the same `catch (DBException)` handler. -/
def eventStep : ArsEvent → StepResult
  | .throwEv c => .thrown c
  | .resp r => collectStep r

/-- The membership test
`std::find(kAllRetriableErrors.begin(), kAllRetriableErrors.end(), ex.code()) != end`.
The contents of `RemoteCommandRetryScheduler::kAllRetriableErrors` live
outside this repository, so the set is a parameter. -/
def isRetriable (retriable : List ErrorCode) (c : ErrorCode) : Bool :=
  retriable.contains c

/-- Outcome of the optimistic collection loop (`while (!ars.done())` inside
the inner `try`): normal exit with the accumulated cursors; a `DBException`
escaping to the outer `catch` carrying the first fatal code, the cursors
accumulated so far, and the completions not yet consumed; or the undefined
dereference.  Each outcome records the trace of the loop's own actions. -/
inductive CollectOutcome where
  | done (cursors : List RemoteCursor) (trace : List TraceEv)
  | fatal (code : ErrorCode) (cursors : List RemoteCursor) (trace : List TraceEv)
      (remaining : List ArsEvent)
  | badDeref (trace : List TraceEv)
deriving DecidableEq, Repr

/-- Prepend one trace event to a collection outcome's trace. -/
def CollectOutcome.consTrace : CollectOutcome → TraceEv → CollectOutcome
  | .done cs tr, t => .done cs (t :: tr)
  | .fatal c cs tr rem, t => .fatal c cs (t :: tr) rem
  | .badDeref tr, t => .badDeref (t :: tr)

/-- Trace projection of a collection outcome. -/
def CollectOutcome.trace : CollectOutcome → List TraceEv
  | .done _ tr => tr
  | .fatal _ _ tr _ => tr
  | .badDeref tr => tr

/-- The optimistic collection loop.  A successfully parsed response appends
an `EstablishedCursor`; a `DBException` is swallowed exactly when
`allowPartialResults` holds and its code is retriable, and otherwise
escapes with the cursors accumulated so far and the unconsumed stream. -/
def collectLoop (apr : Bool) (retriable : List ErrorCode) :
    List RemoteCursor → List ArsEvent → CollectOutcome
  | acc, [] => .done acc []
  | acc, ev :: rest =>
    match eventStep ev with
    | .established rc =>
      (collectLoop apr retriable (acc ++ [rc]) rest).consTrace (.next ev)
    | .badDeref => .badDeref [.next ev]
    | .thrown c =>
      if apr && isRetriable retriable c then
        (collectLoop apr retriable acc rest).consTrace (.next ev)
      else
        .fatal c acc [.next ev] rest

/-- Outcome of the drain loop (the `while (!ars.done())` in the outer
`catch`): normal exhaustion; interruption by a `DBException` from
`ars.next()`, which lands in the innermost `catch` and skips the
killCursors scheduling entirely; or the undefined dereference. -/
inductive DrainOutcome where
  | done (cursors : List RemoteCursor) (trace : List TraceEv)
  | interrupted (cursors : List RemoteCursor) (trace : List TraceEv)
  | badDeref (trace : List TraceEv)
deriving DecidableEq, Repr

/-- Prepend one trace event to a drain outcome's trace. -/
def DrainOutcome.consTrace : DrainOutcome → TraceEv → DrainOutcome
  | .done cs tr, t => .done cs (t :: tr)
  | .interrupted cs tr, t => .interrupted cs (t :: tr)
  | .badDeref tr, t => .badDeref (t :: tr)

/-- Trace projection of a drain outcome. -/
def DrainOutcome.trace : DrainOutcome → List TraceEv
  | .done _ tr => tr
  | .interrupted _ tr => tr
  | .badDeref tr => tr

/-- The drain loop: each remaining completion is folded into
`StatusWith<CursorResponse> swCursorResponse` (transport error becomes the
status; a delivered payload is parsed) and an `EstablishedCursor` is
appended only when that status is OK; a failed status is simply skipped.
No exception is thrown by this handling, but a throw from `ars.next()`
itself interrupts the loop. -/
def drainLoop : List RemoteCursor → List ArsEvent → DrainOutcome
  | acc, [] => .done acc []
  | acc, ev :: rest =>
    match ev with
    | .throwEv _ => .interrupted acc [.next ev]
    | .resp r =>
      match collectStep r with
      | .established rc => (drainLoop (acc ++ [rc]) rest).consTrace (.next ev)
      | .badDeref => .badDeref [.next ev]
      | .thrown _ => (drainLoop acc rest).consTrace (.next ev)

/-- The killCursors command scheduled for one established cursor:
`RemoteCommandRequest(remoteCursor.hostAndPort, nss.db(), KillCursorsRequest(nss, {id}).toBSON(), opCtx)`. -/
def killRequestFor (nss : NamespaceString) (rc : RemoteCursor) : RemoteCommandRequest :=
  { target := rc.hostAndPort
    dbname := nss.db
    cmdObj := (KillCursorsRequest.mk nss [rc.cursorResponse.cursorId]).toBSON }

/-- Overall outcome of `establishCursors`: the returned cursor list, or a
rethrown `DBException` code, or undefined behaviour.  The `threw`
constructor also records (as specification-level ghost state) the cursor
list the coordinator had accumulated when the cleanup phase ran, and every
outcome records the full action trace. -/
inductive EstablishResult where
  | ok (cursors : List RemoteCursor) (trace : List TraceEv)
  | threw (code : ErrorCode) (cursors : List RemoteCursor) (trace : List TraceEv)
  | ub (trace : List TraceEv)
deriving DecidableEq, Repr

/-- The function `mongo::establishCursors`.  Beyond the source signature (`nss`,
`remotes`, `allowPartialResults`; the operation context, executor and read
preference carry no semantics here), the model takes the external
environment as oracles: `retriable` is
`RemoteCommandRetryScheduler::kAllRetriableErrors`, `stream` is the
sequence of events the `AsyncRequestsSender` will yield at successive
`ars.next()` calls, and `killSchedStatus i` is the status
`executor->scheduleRemoteCommand` returns for the i-th killCursors
submission — discarded by `status_with_transitional_ignore()`, hence bound
and ignored here. -/
def establishCursors (nss : NamespaceString) (remotes : List (ShardId × BSONObj))
    (allowPartialResults : Bool) (retriable : List ErrorCode)
    (stream : List ArsEvent) (killSchedStatus : Nat → Except ErrorCode Unit) :
    EstablishResult :=
  let _requests := buildRequests remotes
  match collectLoop allowPartialResults retriable [] stream with
  | .done cursors tr => .ok cursors tr
  | .badDeref tr => .ub tr
  | .fatal code cursors tr remaining =>
    -- Outer catch: stop retrying, drain, schedule killCursors, rethrow.
    match drainLoop cursors remaining with
    | .badDeref dtr => .ub (tr ++ TraceEv.stopRetrying :: dtr)
    | .interrupted cursors2 dtr =>
      -- The drain threw: ignore the new error and rethrow the original one.
      .threw code cursors2 (tr ++ TraceEv.stopRetrying :: dtr)
    | .done cursors2 dtr =>
      let kills := cursors2.map (killRequestFor nss)
      let _ignored := (List.range kills.length).map killSchedStatus
      .threw code cursors2
        (tr ++ TraceEv.stopRetrying :: (dtr ++ kills.map TraceEv.scheduleKill))

/-- Cursor-list projection of the overall outcome (empty on the undefined
path). -/
def EstablishResult.cursors : EstablishResult → List RemoteCursor
  | .ok cs _ => cs
  | .threw _ cs _ => cs
  | .ub _ => []

/-- Trace projection of the overall outcome. -/
def EstablishResult.trace : EstablishResult → List TraceEv
  | .ok _ tr => tr
  | .threw _ _ tr => tr
  | .ub tr => tr

/-- Whether the run hit the undefined optional dereference. -/
def EstablishResult.isUB : EstablishResult → Bool
  | .ub _ => true
  | _ => false

/-- The cursor an event contributes if it is a successfully parsed cursor
response delivered with a host, and `none` otherwise. -/
def ArsEvent.successCursor (ev : ArsEvent) : Option RemoteCursor :=
  match eventStep ev with
  | .established rc => some rc
  | _ => none

/-- The shard identifier carried by a completion. -/
def ArsEvent.eventShardId : ArsEvent → Option ShardId
  | .resp r => some r.shardId
  | .throwEv _ => none

/-- An event the collection loop survives: either it establishes a cursor,
or it throws a code that is swallowed under the given settings. -/
def eventNonFatal (apr : Bool) (retriable : List ErrorCode) (ev : ArsEvent) : Bool :=
  match eventStep ev with
  | .established _ => true
  | .badDeref => false
  | .thrown c => apr && isRetriable retriable c

/-- An event the drain loop consumes without interruption or undefined
behaviour: any delivered response that does not hit the bad dereference. -/
def drainSafe (ev : ArsEvent) : Bool :=
  match ev with
  | .throwEv _ => false
  | .resp r =>
    match collectStep r with
    | .badDeref => false
    | _ => true

/-- The precondition of the implicit safety claim: every completion whose
transport outcome is a success carries a present `shardHostAndPort`. -/
def hostPresentOnSuccess (ev : ArsEvent) : Bool :=
  match ev with
  | .throwEv _ => true
  | .resp r =>
    match r.swResponse with
    | .error _ => true
    | .ok _ => r.shardHostAndPort.isSome

/-- Whether a trace event is an `ars.next()` event. -/
def TraceEv.isNextEv : TraceEv → Bool
  | .next _ => true
  | _ => false

/-- The events consumed from the engine, read off a trace. -/
def consumedOf (tr : List TraceEv) : List ArsEvent :=
  tr.filterMap fun t =>
    match t with
    | .next ev => some ev
    | _ => none

/-- The killCursors submissions recorded in a trace, in order. -/
def killsOfTrace (tr : List TraceEv) : List RemoteCommandRequest :=
  tr.filterMap fun t =>
    match t with
    | .scheduleKill k => some k
    | _ => none

/-- A completion that is a fully successful, parseable cursor response with
a recorded host. -/
def fullSuccess (ev : ArsEvent) : Bool :=
  ev.successCursor.isSome

/-- The trace-free content of a collection outcome, used to state that two
completions are handled identically up to the event recorded in the trace. -/
inductive CollectData where
  | done (cursors : List RemoteCursor)
  | fatal (code : ErrorCode) (cursors : List RemoteCursor) (remaining : List ArsEvent)
  | badDeref
deriving DecidableEq, Repr

/-- Forget the trace of a collection outcome. -/
def CollectOutcome.data : CollectOutcome → CollectData
  | .done cs _ => .done cs
  | .fatal c cs _ rem => .fatal c cs rem
  | .badDeref _ => .badDeref

/-- A cursor record agrees with a completion: same shard, the recorded
host, and exactly the cursor metadata parsed from that shard's delivered
payload. -/
def matchesResponse (ev : ArsEvent) (rc : RemoteCursor) : Prop :=
  ∃ r, ev = ArsEvent.resp r ∧ rc.shardId = r.shardId ∧
    r.shardHostAndPort = some rc.hostAndPort ∧
    ∃ rcr, r.swResponse = .ok rcr ∧
      CursorResponse.parseFromBSON rcr.data = .ok rc.cursorResponse

/-! ## Concrete fixtures (used by witnesses and counterexamples) -/

def wNss : NamespaceString := ⟨"testdb", "coll"⟩

def wCr1 : CursorResponse := ⟨wNss, 123, []⟩

def wCr3 : CursorResponse := ⟨wNss, 456, [7]⟩

def wR1 : Response := ⟨"shard1", .ok ⟨.cursorReply wCr1⟩, some "host1:27017"⟩

/-- A shard reporting a non-retriable remote error (code 5). -/
def wR2 : Response := ⟨"shard2", .error 5, some "host2:27017"⟩

/-- A shard failing with retriable code 6 before any connection was made. -/
def wR2r : Response := ⟨"shard2", .error 6, none⟩

def wR3 : Response := ⟨"shard3", .ok ⟨.cursorReply wCr3⟩, some "host3:27017"⟩

def wRc1 : RemoteCursor := ⟨"shard1", "host1:27017", wCr1⟩

def wRc3 : RemoteCursor := ⟨"shard3", "host3:27017", wCr3⟩

def wKs : Nat → Except ErrorCode Unit := fun _ => .ok ()

def wKsBad : Nat → Except ErrorCode Unit := fun _ => .error 1

/-- A sample retriable set (host-unreachable-like 6, network-timeout-like 89). -/
def wRetriable : List ErrorCode := [6, 89]

def wRemotes2 : List (ShardId × BSONObj) := [("shard1", .malformed 0), ("shard3", .malformed 0)]

def wRemotes3 : List (ShardId × BSONObj) :=
  [("shard1", .malformed 0), ("shard2", .malformed 0), ("shard3", .malformed 0)]

/-- Stream for the cleanup counterexample: one cursor established, then a
fatal remote error, then `ars.next()` throws during the drain. -/
def wStreamKill : List ArsEvent := [.resp wR1, .resp wR2, .throwEv 11601]

/-- Stream for the drain-exhaustion counterexample: a fatal remote error,
then `ars.next()` throws, then a completion that would have parsed. -/
def wStreamDrain : List ArsEvent := [.resp wR2, .throwEv 11601, .resp wR1]

/-! ## Basic lemmas about traces and outcomes -/

lemma CollectOutcome.data_consTrace (o : CollectOutcome) (t : TraceEv) :
    (o.consTrace t).data = o.data := by
  cases o <;> rfl

lemma killsOfTrace_append (a b : List TraceEv) :
    killsOfTrace (a ++ b) = killsOfTrace a ++ killsOfTrace b := by
  simp [killsOfTrace, List.filterMap_append]

lemma killsOfTrace_map_next (l : List ArsEvent) :
    killsOfTrace (l.map TraceEv.next) = [] := by
  induction l with
  | nil => rfl
  | cons a l ih => simp [killsOfTrace, List.filterMap_cons]

lemma killsOfTrace_cons_next (ev : ArsEvent) (tr : List TraceEv) :
    killsOfTrace (TraceEv.next ev :: tr) = killsOfTrace tr := by
  simp [killsOfTrace, List.filterMap_cons]

lemma killsOfTrace_cons_stop (tr : List TraceEv) :
    killsOfTrace (TraceEv.stopRetrying :: tr) = killsOfTrace tr := by
  simp [killsOfTrace, List.filterMap_cons]

lemma killsOfTrace_map_kill (ks : List RemoteCommandRequest) :
    killsOfTrace (ks.map TraceEv.scheduleKill) = ks := by
  induction ks with
  | nil => rfl
  | cons k ks ih => simpa [killsOfTrace, List.filterMap_cons] using ih

lemma killsOfTrace_map_kill_comp (f : RemoteCursor → RemoteCommandRequest)
    (l : List RemoteCursor) :
    killsOfTrace (l.map (TraceEv.scheduleKill ∘ f)) = l.map f := by
  induction l with
  | nil => rfl
  | cons a l ih => simpa [killsOfTrace, List.filterMap_cons] using ih

lemma consumedOf_map_kill_comp (f : RemoteCursor → RemoteCommandRequest)
    (l : List RemoteCursor) :
    consumedOf (l.map (TraceEv.scheduleKill ∘ f)) = [] := by
  induction l with
  | nil => rfl
  | cons a l ih => simp [consumedOf, List.filterMap_cons]

lemma consumedOf_append (a b : List TraceEv) :
    consumedOf (a ++ b) = consumedOf a ++ consumedOf b := by
  simp [consumedOf, List.filterMap_append]

lemma consumedOf_map_next (l : List ArsEvent) :
    consumedOf (l.map TraceEv.next) = l := by
  induction l with
  | nil => rfl
  | cons a l ih => simpa [consumedOf, List.filterMap_cons] using ih

lemma consumedOf_cons_next (ev : ArsEvent) (tr : List TraceEv) :
    consumedOf (TraceEv.next ev :: tr) = ev :: consumedOf tr := by
  simp [consumedOf, List.filterMap_cons]

lemma consumedOf_cons_stop (tr : List TraceEv) :
    consumedOf (TraceEv.stopRetrying :: tr) = consumedOf tr := by
  simp [consumedOf, List.filterMap_cons]

lemma consumedOf_map_kill (ks : List RemoteCommandRequest) :
    consumedOf (ks.map TraceEv.scheduleKill) = [] := by
  induction ks with
  | nil => rfl
  | cons k ks ih => simp [consumedOf, List.filterMap_cons]

/-! ## Inversion of the per-completion step -/

lemma collectStep_established_inv (r : Response) (rc : RemoteCursor)
    (h : collectStep r = .established rc) :
    rc.shardId = r.shardId ∧ r.shardHostAndPort = some rc.hostAndPort ∧
      ∃ rcr, r.swResponse = .ok rcr ∧
        CursorResponse.parseFromBSON rcr.data = .ok rc.cursorResponse := by
  cases hsw : r.swResponse with
  | error e => simp [collectStep, hsw] at h
  | ok rcr =>
    cases hp : CursorResponse.parseFromBSON rcr.data with
    | error e => simp [collectStep, hsw, hp] at h
    | ok cr =>
      cases hh : r.shardHostAndPort with
      | none => simp [collectStep, hsw, hp, hh] at h
      | some host =>
        have hred : collectStep r = .established ⟨r.shardId, host, cr⟩ := by
          simp [collectStep, hsw, hp, hh]
        rw [hred] at h
        injection h with h1
        subst h1
        exact ⟨rfl, rfl, rcr, rfl, hp⟩

lemma successCursor_eq_some {ev : ArsEvent} {rc : RemoteCursor}
    (h : eventStep ev = .established rc) : ev.successCursor = some rc := by
  simp [ArsEvent.successCursor, h]

lemma successCursor_eq_none_of_thrown {ev : ArsEvent} {c : ErrorCode}
    (h : eventStep ev = .thrown c) : ev.successCursor = none := by
  simp [ArsEvent.successCursor, h]

lemma fullSuccess_resp {ev : ArsEvent} (h : fullSuccess ev = true) :
    ∃ r rc, ev = ArsEvent.resp r ∧ collectStep r = .established rc := by
  cases ev with
  | throwEv c => simp [fullSuccess, ArsEvent.successCursor, eventStep] at h
  | resp r =>
    cases hstep : collectStep r with
    | established rc => exact ⟨r, rc, rfl, hstep⟩
    | thrown c => simp [fullSuccess, ArsEvent.successCursor, eventStep, hstep] at h
    | badDeref => simp [fullSuccess, ArsEvent.successCursor, eventStep, hstep] at h

lemma eventNonFatal_of_fullSuccess {apr : Bool} {ret : List ErrorCode} {ev : ArsEvent}
    (h : fullSuccess ev = true) : eventNonFatal apr ret ev = true := by
  obtain ⟨r, rc, rfl, hstep⟩ := fullSuccess_resp h
  simp [eventNonFatal, eventStep, hstep]

lemma eventStep_ne_badDeref {ev : ArsEvent} (h : hostPresentOnSuccess ev = true) :
    eventStep ev ≠ .badDeref := by
  cases ev with
  | throwEv c => simp [eventStep]
  | resp r =>
    cases hsw : r.swResponse with
    | error e => simp [eventStep, collectStep, hsw]
    | ok rcr =>
      have hsome : r.shardHostAndPort.isSome = true := by
        simpa [hostPresentOnSuccess, hsw] using h
      cases hp : CursorResponse.parseFromBSON rcr.data with
      | error e => simp [eventStep, collectStep, hsw, hp]
      | ok cr =>
        cases hh : r.shardHostAndPort with
        | none => rw [hh] at hsome; simp at hsome
        | some host => simp [eventStep, collectStep, hsw, hp, hh]

/-! ## Behaviour of the collection loop -/

/-- If every completion is survivable (successful, or swallowed under the
current settings), the collection loop terminates normally, appending the
cursor of exactly each successfully parsed completion. -/
lemma collectLoop_done_of_nonfatal (apr : Bool) (ret : List ErrorCode) :
    ∀ (evs : List ArsEvent) (acc : List RemoteCursor),
      (∀ ev ∈ evs, eventNonFatal apr ret ev = true) →
      collectLoop apr ret acc evs =
        .done (acc ++ evs.filterMap ArsEvent.successCursor) (evs.map TraceEv.next) := by
  intro evs
  induction evs with
  | nil => intro acc _; simp [collectLoop]
  | cons ev rest ih =>
    intro acc h
    have hev := h ev (by simp)
    have hrest : ∀ e ∈ rest, eventNonFatal apr ret e = true := fun e he => h e (by simp [he])
    cases hstep : eventStep ev with
    | established rc =>
      have hsc := successCursor_eq_some hstep
      simp [collectLoop, hstep, ih (acc ++ [rc]) hrest, CollectOutcome.consTrace, hsc]
    | badDeref => simp [eventNonFatal, hstep] at hev
    | thrown c =>
      have hsw : (apr && isRetriable ret c) = true := by
        simpa [eventNonFatal, hstep] using hev
      have hsc := successCursor_eq_none_of_thrown hstep
      simp [collectLoop, hstep, hsw, ih acc hrest, CollectOutcome.consTrace, hsc]

/-- A non-survivable completion after a survivable prefix makes the
collection loop escape with exactly that completion's code, the cursors of
the prefix, and the unconsumed suffix. -/
lemma collectLoop_fatal_decomp (apr : Bool) (ret : List ErrorCode) :
    ∀ (pre : List ArsEvent) (acc : List RemoteCursor) (bad : ArsEvent) (c : ErrorCode)
      (rest : List ArsEvent),
      (∀ ev ∈ pre, eventNonFatal apr ret ev = true) →
      eventStep bad = .thrown c →
      (apr && isRetriable ret c) = false →
      collectLoop apr ret acc (pre ++ bad :: rest) =
        .fatal c (acc ++ pre.filterMap ArsEvent.successCursor)
          (pre.map TraceEv.next ++ [TraceEv.next bad]) rest := by
  intro pre
  induction pre with
  | nil =>
    intro acc bad c rest _ hbad hfat
    simp [collectLoop, hbad, hfat]
  | cons ev pr ih =>
    intro acc bad c rest h hbad hfat
    have hev := h ev (by simp)
    have hpr : ∀ e ∈ pr, eventNonFatal apr ret e = true := fun e he => h e (by simp [he])
    cases hstep : eventStep ev with
    | established rc =>
      have hsc := successCursor_eq_some hstep
      simp [collectLoop, hstep, ih (acc ++ [rc]) bad c rest hpr hbad hfat,
        CollectOutcome.consTrace, hsc]
    | badDeref => simp [eventNonFatal, hstep] at hev
    | thrown c0 =>
      have hsw : (apr && isRetriable ret c0) = true := by
        simpa [eventNonFatal, hstep] using hev
      have hsc := successCursor_eq_none_of_thrown hstep
      simp [collectLoop, hstep, hsw, ih acc bad c rest hpr hbad hfat,
        CollectOutcome.consTrace, hsc]

/-- Under the host-presence precondition, the collection loop never hits
the undefined dereference. -/
lemma collectLoop_ne_badDeref (apr : Bool) (ret : List ErrorCode) :
    ∀ (evs : List ArsEvent) (acc : List RemoteCursor),
      (∀ ev ∈ evs, hostPresentOnSuccess ev = true) →
      ∀ tr, collectLoop apr ret acc evs ≠ .badDeref tr := by
  intro evs
  induction evs with
  | nil => intro acc _ tr; simp [collectLoop]
  | cons ev rest ih =>
    intro acc h tr
    have hev := h ev (by simp)
    have hrest : ∀ e ∈ rest, hostPresentOnSuccess e = true := fun e he => h e (by simp [he])
    cases hstep : eventStep ev with
    | established rc =>
      cases hrec : collectLoop apr ret (acc ++ [rc]) rest with
      | done cs tr0 => simp [collectLoop, hstep, hrec, CollectOutcome.consTrace]
      | fatal c0 cs tr0 rem => simp [collectLoop, hstep, hrec, CollectOutcome.consTrace]
      | badDeref tr0 => exact absurd hrec (ih (acc ++ [rc]) hrest tr0)
    | badDeref => exact absurd hstep (eventStep_ne_badDeref hev)
    | thrown c =>
      by_cases hsw : (apr && isRetriable ret c) = true
      · cases hrec : collectLoop apr ret acc rest with
        | done cs tr0 => simp [collectLoop, hstep, hsw, hrec, CollectOutcome.consTrace]
        | fatal c0 cs tr0 rem => simp [collectLoop, hstep, hsw, hrec, CollectOutcome.consTrace]
        | badDeref tr0 => exact absurd hrec (ih acc hrest tr0)
      · simp [collectLoop, hstep, Bool.not_eq_true _ ▸ hsw]

/-- The suffix reported by a fatal escape of the collection loop is the
part of the stream after the fatal completion. -/
lemma collectLoop_fatal_remaining (apr : Bool) (ret : List ErrorCode) :
    ∀ (evs : List ArsEvent) (acc : List RemoteCursor) (c : ErrorCode)
      (cs : List RemoteCursor) (tr : List TraceEv) (rem : List ArsEvent),
      collectLoop apr ret acc evs = .fatal c cs tr rem →
      ∃ pre bad, evs = pre ++ bad :: rem := by
  intro evs
  induction evs with
  | nil => intro acc c cs tr rem h; simp [collectLoop] at h
  | cons ev rest ih =>
    intro acc c cs tr rem h
    cases hstep : eventStep ev with
    | established rc =>
      cases hrec : collectLoop apr ret (acc ++ [rc]) rest with
      | done cs0 tr0 => simp [collectLoop, hstep, hrec, CollectOutcome.consTrace] at h
      | badDeref tr0 => simp [collectLoop, hstep, hrec, CollectOutcome.consTrace] at h
      | fatal c0 cs0 tr0 rem0 =>
        have hred : collectLoop apr ret acc (ev :: rest) =
            CollectOutcome.fatal c0 cs0 (TraceEv.next ev :: tr0) rem0 := by
          simp [collectLoop, hstep, hrec, CollectOutcome.consTrace]
        rw [hred] at h
        injection h with h1 h2 h3 h4
        obtain ⟨pre, bad, hpre⟩ := ih (acc ++ [rc]) c0 cs0 tr0 rem0 hrec
        exact ⟨ev :: pre, bad, by simp [hpre, h4]⟩
    | badDeref =>
      simp [collectLoop, hstep] at h
    | thrown c0 =>
      by_cases hsw : (apr && isRetriable ret c0) = true
      · cases hrec : collectLoop apr ret acc rest with
        | done cs0 tr0 => simp [collectLoop, hstep, hsw, hrec, CollectOutcome.consTrace] at h
        | badDeref tr0 => simp [collectLoop, hstep, hsw, hrec, CollectOutcome.consTrace] at h
        | fatal c1 cs0 tr0 rem0 =>
          have hred : collectLoop apr ret acc (ev :: rest) =
              CollectOutcome.fatal c1 cs0 (TraceEv.next ev :: tr0) rem0 := by
            simp [collectLoop, hstep, hsw, hrec, CollectOutcome.consTrace]
          rw [hred] at h
          injection h with h1 h2 h3 h4
          obtain ⟨pre, bad, hpre⟩ := ih acc c1 cs0 tr0 rem0 hrec
          exact ⟨ev :: pre, bad, by simp [hpre, h4]⟩
      · have hsw' : (apr && isRetriable ret c0) = false := by
          simpa using hsw
        have hred : collectLoop apr ret acc (ev :: rest) =
            CollectOutcome.fatal c0 acc [TraceEv.next ev] rest := by
          simp [collectLoop, hstep, hsw']
        rw [hred] at h
        injection h with h1 h2 h3 h4
        exact ⟨[], ev, by simp [h4]⟩

/-! ## Behaviour of the drain loop -/

/-- If no remaining completion throws from `ars.next()` or hits the bad
dereference, the drain loop consumes the whole remaining stream, appending
the cursor of exactly each successfully parsed completion. -/
lemma drainLoop_done_of_safe :
    ∀ (evs : List ArsEvent) (acc : List RemoteCursor),
      (∀ ev ∈ evs, drainSafe ev = true) →
      drainLoop acc evs =
        .done (acc ++ evs.filterMap ArsEvent.successCursor) (evs.map TraceEv.next) := by
  intro evs
  induction evs with
  | nil => intro acc _; simp [drainLoop]
  | cons ev rest ih =>
    intro acc h
    have hev := h ev (by simp)
    have hrest : ∀ e ∈ rest, drainSafe e = true := fun e he => h e (by simp [he])
    cases ev with
    | throwEv c => simp [drainSafe] at hev
    | resp r =>
      cases hstep : collectStep r with
      | established rc =>
        have hsc : (ArsEvent.resp r).successCursor = some rc := by
          simp [ArsEvent.successCursor, eventStep, hstep]
        simp [drainLoop, hstep, ih (acc ++ [rc]) hrest, DrainOutcome.consTrace, hsc]
      | badDeref => simp [drainSafe, hstep] at hev
      | thrown c =>
        have hsc : (ArsEvent.resp r).successCursor = none := by
          simp [ArsEvent.successCursor, eventStep, hstep]
        simp [drainLoop, hstep, ih acc hrest, DrainOutcome.consTrace, hsc]

/-- A throw from `ars.next()` after a safe prefix interrupts the drain loop:
the completions after the throw are never fetched and no killCursors is
reached. -/
lemma drainLoop_interrupted_decomp :
    ∀ (pre : List ArsEvent) (acc : List RemoteCursor) (c : ErrorCode) (rest : List ArsEvent),
      (∀ ev ∈ pre, drainSafe ev = true) →
      drainLoop acc (pre ++ ArsEvent.throwEv c :: rest) =
        .interrupted (acc ++ pre.filterMap ArsEvent.successCursor)
          (pre.map TraceEv.next ++ [TraceEv.next (ArsEvent.throwEv c)]) := by
  intro pre
  induction pre with
  | nil => intro acc c rest _; simp [drainLoop]
  | cons ev pr ih =>
    intro acc c rest h
    have hev := h ev (by simp)
    have hpr : ∀ e ∈ pr, drainSafe e = true := fun e he => h e (by simp [he])
    cases ev with
    | throwEv c0 => simp [drainSafe] at hev
    | resp r =>
      cases hstep : collectStep r with
      | established rc =>
        have hsc : (ArsEvent.resp r).successCursor = some rc := by
          simp [ArsEvent.successCursor, eventStep, hstep]
        simp [drainLoop, hstep, ih (acc ++ [rc]) c rest hpr, DrainOutcome.consTrace, hsc]
      | badDeref => simp [drainSafe, hstep] at hev
      | thrown c0 =>
        have hsc : (ArsEvent.resp r).successCursor = none := by
          simp [ArsEvent.successCursor, eventStep, hstep]
        simp [drainLoop, hstep, ih acc c rest hpr, DrainOutcome.consTrace, hsc]

/-- Under the host-presence precondition, the drain loop never hits the
undefined dereference. -/
lemma drainLoop_ne_badDeref :
    ∀ (evs : List ArsEvent) (acc : List RemoteCursor),
      (∀ ev ∈ evs, hostPresentOnSuccess ev = true) →
      ∀ tr, drainLoop acc evs ≠ .badDeref tr := by
  intro evs
  induction evs with
  | nil => intro acc _ tr; simp [drainLoop]
  | cons ev rest ih =>
    intro acc h tr
    have hev := h ev (by simp)
    have hrest : ∀ e ∈ rest, hostPresentOnSuccess e = true := fun e he => h e (by simp [he])
    cases ev with
    | throwEv c => simp [drainLoop]
    | resp r =>
      cases hstep : collectStep r with
      | established rc =>
        cases hrec : drainLoop (acc ++ [rc]) rest with
        | done cs tr0 => simp [drainLoop, hstep, hrec, DrainOutcome.consTrace]
        | interrupted cs tr0 => simp [drainLoop, hstep, hrec, DrainOutcome.consTrace]
        | badDeref tr0 => exact absurd hrec (ih (acc ++ [rc]) hrest tr0)
      | badDeref =>
        exact absurd (show eventStep (ArsEvent.resp r) = .badDeref by simp [eventStep, hstep])
          (eventStep_ne_badDeref hev)
      | thrown c =>
        cases hrec : drainLoop acc rest with
        | done cs tr0 => simp [drainLoop, hstep, hrec, DrainOutcome.consTrace]
        | interrupted cs tr0 => simp [drainLoop, hstep, hrec, DrainOutcome.consTrace]
        | badDeref tr0 => exact absurd hrec (ih acc hrest tr0)

/-! ## Trace shape and cursor provenance -/

/-- The collection loop records only `ars.next()` events in its trace. -/
lemma collectLoop_trace_next (apr : Bool) (ret : List ErrorCode) :
    ∀ (evs : List ArsEvent) (acc : List RemoteCursor),
      ∃ l : List ArsEvent, (collectLoop apr ret acc evs).trace = l.map TraceEv.next := by
  intro evs
  induction evs with
  | nil => intro acc; exact ⟨[], by simp [collectLoop, CollectOutcome.trace]⟩
  | cons ev rest ih =>
    intro acc
    cases hstep : eventStep ev with
    | established rc =>
      obtain ⟨l, hl⟩ := ih (acc ++ [rc])
      cases hrec : collectLoop apr ret (acc ++ [rc]) rest with
      | done cs tr0 =>
        rw [hrec] at hl
        exact ⟨ev :: l, by
          simp [collectLoop, hstep, hrec, CollectOutcome.consTrace, CollectOutcome.trace] at hl ⊢
          exact hl⟩
      | fatal c0 cs tr0 rem =>
        rw [hrec] at hl
        exact ⟨ev :: l, by
          simp [collectLoop, hstep, hrec, CollectOutcome.consTrace, CollectOutcome.trace] at hl ⊢
          exact hl⟩
      | badDeref tr0 =>
        rw [hrec] at hl
        exact ⟨ev :: l, by
          simp [collectLoop, hstep, hrec, CollectOutcome.consTrace, CollectOutcome.trace] at hl ⊢
          exact hl⟩
    | badDeref =>
      exact ⟨[ev], by simp [collectLoop, hstep, CollectOutcome.trace]⟩
    | thrown c =>
      by_cases hsw : (apr && isRetriable ret c) = true
      · obtain ⟨l, hl⟩ := ih acc
        cases hrec : collectLoop apr ret acc rest with
        | done cs tr0 =>
          rw [hrec] at hl
          exact ⟨ev :: l, by
            simp [collectLoop, hstep, hsw, hrec, CollectOutcome.consTrace,
              CollectOutcome.trace] at hl ⊢
            exact hl⟩
        | fatal c0 cs tr0 rem =>
          rw [hrec] at hl
          exact ⟨ev :: l, by
            simp [collectLoop, hstep, hsw, hrec, CollectOutcome.consTrace,
              CollectOutcome.trace] at hl ⊢
            exact hl⟩
        | badDeref tr0 =>
          rw [hrec] at hl
          exact ⟨ev :: l, by
            simp [collectLoop, hstep, hsw, hrec, CollectOutcome.consTrace,
              CollectOutcome.trace] at hl ⊢
            exact hl⟩
      · have hsw' : (apr && isRetriable ret c) = false := by simpa using hsw
        exact ⟨[ev], by simp [collectLoop, hstep, hsw', CollectOutcome.trace]⟩

/-- The drain loop records only `ars.next()` events in its trace. -/
lemma drainLoop_trace_next :
    ∀ (evs : List ArsEvent) (acc : List RemoteCursor),
      ∃ l : List ArsEvent, (drainLoop acc evs).trace = l.map TraceEv.next := by
  intro evs
  induction evs with
  | nil => intro acc; exact ⟨[], by simp [drainLoop, DrainOutcome.trace]⟩
  | cons ev rest ih =>
    intro acc
    cases ev with
    | throwEv c => exact ⟨[.throwEv c], by simp [drainLoop, DrainOutcome.trace]⟩
    | resp r =>
      cases hstep : collectStep r with
      | established rc =>
        obtain ⟨l, hl⟩ := ih (acc ++ [rc])
        cases hrec : drainLoop (acc ++ [rc]) rest with
        | done cs tr0 =>
          rw [hrec] at hl
          exact ⟨.resp r :: l, by
            simp [drainLoop, hstep, hrec, DrainOutcome.consTrace, DrainOutcome.trace] at hl ⊢
            exact hl⟩
        | interrupted cs tr0 =>
          rw [hrec] at hl
          exact ⟨.resp r :: l, by
            simp [drainLoop, hstep, hrec, DrainOutcome.consTrace, DrainOutcome.trace] at hl ⊢
            exact hl⟩
        | badDeref tr0 =>
          rw [hrec] at hl
          exact ⟨.resp r :: l, by
            simp [drainLoop, hstep, hrec, DrainOutcome.consTrace, DrainOutcome.trace] at hl ⊢
            exact hl⟩
      | badDeref =>
        exact ⟨[.resp r], by simp [drainLoop, hstep, DrainOutcome.trace]⟩
      | thrown c =>
        obtain ⟨l, hl⟩ := ih acc
        cases hrec : drainLoop acc rest with
        | done cs tr0 =>
          rw [hrec] at hl
          exact ⟨.resp r :: l, by
            simp [drainLoop, hstep, hrec, DrainOutcome.consTrace, DrainOutcome.trace] at hl ⊢
            exact hl⟩
        | interrupted cs tr0 =>
          rw [hrec] at hl
          exact ⟨.resp r :: l, by
            simp [drainLoop, hstep, hrec, DrainOutcome.consTrace, DrainOutcome.trace] at hl ⊢
            exact hl⟩
        | badDeref tr0 =>
          rw [hrec] at hl
          exact ⟨.resp r :: l, by
            simp [drainLoop, hstep, hrec, DrainOutcome.consTrace, DrainOutcome.trace] at hl ⊢
            exact hl⟩

/-- The cursor list accumulated by the collection loop is exactly the
sequence of cursors of the successfully parsed completions it consumed:
a failed completion contributes nothing. -/
lemma collectLoop_cursors_consumed (apr : Bool) (ret : List ErrorCode) :
    ∀ (evs : List ArsEvent) (acc : List RemoteCursor),
      (∀ cs tr, collectLoop apr ret acc evs = .done cs tr →
        cs = acc ++ (consumedOf tr).filterMap ArsEvent.successCursor) ∧
      (∀ c cs tr rem, collectLoop apr ret acc evs = .fatal c cs tr rem →
        cs = acc ++ (consumedOf tr).filterMap ArsEvent.successCursor) := by
  intro evs
  induction evs with
  | nil =>
    intro acc
    constructor
    · intro cs tr h
      have hred : collectLoop apr ret acc [] = .done acc [] := by simp [collectLoop]
      rw [hred] at h
      injection h with h1 h2
      subst h1
      subst h2
      simp [consumedOf]
    · intro c cs tr rem h
      simp [collectLoop] at h
  | cons ev rest ih =>
    intro acc
    cases hstep : eventStep ev with
    | established rc =>
      have hsc := successCursor_eq_some hstep
      constructor
      · intro cs tr h
        cases hrec : collectLoop apr ret (acc ++ [rc]) rest with
        | fatal c0 cs0 tr0 rem0 => simp [collectLoop, hstep, hrec, CollectOutcome.consTrace] at h
        | badDeref tr0 => simp [collectLoop, hstep, hrec, CollectOutcome.consTrace] at h
        | done cs0 tr0 =>
          have hred : collectLoop apr ret acc (ev :: rest) =
              CollectOutcome.done cs0 (TraceEv.next ev :: tr0) := by
            simp [collectLoop, hstep, hrec, CollectOutcome.consTrace]
          rw [hred] at h
          injection h with h1 h2
          subst h1
          subst h2
          have := (ih (acc ++ [rc])).1 cs0 tr0 hrec
          simp [this, consumedOf_cons_next, List.filterMap_cons, hsc]
      · intro c cs tr rem h
        cases hrec : collectLoop apr ret (acc ++ [rc]) rest with
        | done cs0 tr0 => simp [collectLoop, hstep, hrec, CollectOutcome.consTrace] at h
        | badDeref tr0 => simp [collectLoop, hstep, hrec, CollectOutcome.consTrace] at h
        | fatal c0 cs0 tr0 rem0 =>
          have hred : collectLoop apr ret acc (ev :: rest) =
              CollectOutcome.fatal c0 cs0 (TraceEv.next ev :: tr0) rem0 := by
            simp [collectLoop, hstep, hrec, CollectOutcome.consTrace]
          rw [hred] at h
          injection h with h1 h2 h3 h4
          subst h1
          subst h2
          subst h3
          have := (ih (acc ++ [rc])).2 c0 cs0 tr0 rem0 hrec
          simp [this, consumedOf_cons_next, List.filterMap_cons, hsc]
    | badDeref =>
      constructor
      · intro cs tr h
        simp [collectLoop, hstep] at h
      · intro c cs tr rem h
        simp [collectLoop, hstep] at h
    | thrown c0 =>
      have hsc := successCursor_eq_none_of_thrown hstep
      by_cases hsw : (apr && isRetriable ret c0) = true
      · constructor
        · intro cs tr h
          cases hrec : collectLoop apr ret acc rest with
          | fatal c1 cs0 tr0 rem0 =>
            simp [collectLoop, hstep, hsw, hrec, CollectOutcome.consTrace] at h
          | badDeref tr0 => simp [collectLoop, hstep, hsw, hrec, CollectOutcome.consTrace] at h
          | done cs0 tr0 =>
            have hred : collectLoop apr ret acc (ev :: rest) =
                CollectOutcome.done cs0 (TraceEv.next ev :: tr0) := by
              simp [collectLoop, hstep, hsw, hrec, CollectOutcome.consTrace]
            rw [hred] at h
            injection h with h1 h2
            subst h1
            subst h2
            have := (ih acc).1 cs0 tr0 hrec
            simp [this, consumedOf_cons_next, List.filterMap_cons, hsc]
        · intro c cs tr rem h
          cases hrec : collectLoop apr ret acc rest with
          | done cs0 tr0 => simp [collectLoop, hstep, hsw, hrec, CollectOutcome.consTrace] at h
          | badDeref tr0 => simp [collectLoop, hstep, hsw, hrec, CollectOutcome.consTrace] at h
          | fatal c1 cs0 tr0 rem0 =>
            have hred : collectLoop apr ret acc (ev :: rest) =
                CollectOutcome.fatal c1 cs0 (TraceEv.next ev :: tr0) rem0 := by
              simp [collectLoop, hstep, hsw, hrec, CollectOutcome.consTrace]
            rw [hred] at h
            injection h with h1 h2 h3 h4
            subst h1
            subst h2
            subst h3
            have := (ih acc).2 c1 cs0 tr0 rem0 hrec
            simp [this, consumedOf_cons_next, List.filterMap_cons, hsc]
      · have hsw' : (apr && isRetriable ret c0) = false := by simpa using hsw
        constructor
        · intro cs tr h
          simp [collectLoop, hstep, hsw'] at h
        · intro c cs tr rem h
          have hred : collectLoop apr ret acc (ev :: rest) =
              CollectOutcome.fatal c0 acc [TraceEv.next ev] rest := by
            simp [collectLoop, hstep, hsw']
          rw [hred] at h
          injection h with h1 h2 h3 h4
          subst h1
          subst h2
          subst h3
          simp [consumedOf_cons_next, consumedOf, List.filterMap_cons, hsc]

/-- The cursor list accumulated by the drain loop is exactly the sequence
of cursors of the successfully parsed completions it consumed. -/
lemma drainLoop_cursors_consumed :
    ∀ (evs : List ArsEvent) (acc : List RemoteCursor),
      (∀ cs tr, drainLoop acc evs = .done cs tr →
        cs = acc ++ (consumedOf tr).filterMap ArsEvent.successCursor) ∧
      (∀ cs tr, drainLoop acc evs = .interrupted cs tr →
        cs = acc ++ (consumedOf tr).filterMap ArsEvent.successCursor) := by
  intro evs
  induction evs with
  | nil =>
    intro acc
    constructor
    · intro cs tr h
      have hred : drainLoop acc [] = .done acc [] := by simp [drainLoop]
      rw [hred] at h
      injection h with h1 h2
      subst h1
      subst h2
      simp [consumedOf]
    · intro cs tr h
      simp [drainLoop] at h
  | cons ev rest ih =>
    intro acc
    cases ev with
    | throwEv c =>
      constructor
      · intro cs tr h
        simp [drainLoop] at h
      · intro cs tr h
        have hred : drainLoop acc (ArsEvent.throwEv c :: rest) =
            DrainOutcome.interrupted acc [TraceEv.next (ArsEvent.throwEv c)] := by
          simp [drainLoop]
        rw [hred] at h
        injection h with h1 h2
        subst h1
        subst h2
        simp [consumedOf, List.filterMap_cons, ArsEvent.successCursor, eventStep]
    | resp r =>
      cases hstep : collectStep r with
      | established rc =>
        have hsc : (ArsEvent.resp r).successCursor = some rc := by
          simp [ArsEvent.successCursor, eventStep, hstep]
        constructor
        · intro cs tr h
          cases hrec : drainLoop (acc ++ [rc]) rest with
          | interrupted cs0 tr0 => simp [drainLoop, hstep, hrec, DrainOutcome.consTrace] at h
          | badDeref tr0 => simp [drainLoop, hstep, hrec, DrainOutcome.consTrace] at h
          | done cs0 tr0 =>
            have hred : drainLoop acc (ArsEvent.resp r :: rest) =
                DrainOutcome.done cs0 (TraceEv.next (ArsEvent.resp r) :: tr0) := by
              simp [drainLoop, hstep, hrec, DrainOutcome.consTrace]
            rw [hred] at h
            injection h with h1 h2
            subst h1
            subst h2
            have := (ih (acc ++ [rc])).1 cs0 tr0 hrec
            simp [this, consumedOf_cons_next, List.filterMap_cons, hsc]
        · intro cs tr h
          cases hrec : drainLoop (acc ++ [rc]) rest with
          | done cs0 tr0 => simp [drainLoop, hstep, hrec, DrainOutcome.consTrace] at h
          | badDeref tr0 => simp [drainLoop, hstep, hrec, DrainOutcome.consTrace] at h
          | interrupted cs0 tr0 =>
            have hred : drainLoop acc (ArsEvent.resp r :: rest) =
                DrainOutcome.interrupted cs0 (TraceEv.next (ArsEvent.resp r) :: tr0) := by
              simp [drainLoop, hstep, hrec, DrainOutcome.consTrace]
            rw [hred] at h
            injection h with h1 h2
            subst h1
            subst h2
            have := (ih (acc ++ [rc])).2 cs0 tr0 hrec
            simp [this, consumedOf_cons_next, List.filterMap_cons, hsc]
      | badDeref =>
        constructor
        · intro cs tr h
          simp [drainLoop, hstep] at h
        · intro cs tr h
          simp [drainLoop, hstep] at h
      | thrown c =>
        have hsc : (ArsEvent.resp r).successCursor = none := by
          simp [ArsEvent.successCursor, eventStep, hstep]
        constructor
        · intro cs tr h
          cases hrec : drainLoop acc rest with
          | interrupted cs0 tr0 => simp [drainLoop, hstep, hrec, DrainOutcome.consTrace] at h
          | badDeref tr0 => simp [drainLoop, hstep, hrec, DrainOutcome.consTrace] at h
          | done cs0 tr0 =>
            have hred : drainLoop acc (ArsEvent.resp r :: rest) =
                DrainOutcome.done cs0 (TraceEv.next (ArsEvent.resp r) :: tr0) := by
              simp [drainLoop, hstep, hrec, DrainOutcome.consTrace]
            rw [hred] at h
            injection h with h1 h2
            subst h1
            subst h2
            have := (ih acc).1 cs0 tr0 hrec
            simp [this, consumedOf_cons_next, List.filterMap_cons, hsc]
        · intro cs tr h
          cases hrec : drainLoop acc rest with
          | done cs0 tr0 => simp [drainLoop, hstep, hrec, DrainOutcome.consTrace] at h
          | badDeref tr0 => simp [drainLoop, hstep, hrec, DrainOutcome.consTrace] at h
          | interrupted cs0 tr0 =>
            have hred : drainLoop acc (ArsEvent.resp r :: rest) =
                DrainOutcome.interrupted cs0 (TraceEv.next (ArsEvent.resp r) :: tr0) := by
              simp [drainLoop, hstep, hrec, DrainOutcome.consTrace]
            rw [hred] at h
            injection h with h1 h2
            subst h1
            subst h2
            have := (ih acc).2 cs0 tr0 hrec
            simp [this, consumedOf_cons_next, List.filterMap_cons, hsc]

/-! ## Fully successful streams -/

lemma successCursor_shardIds :
    ∀ (l : List ArsEvent), (∀ ev ∈ l, fullSuccess ev = true) →
      (l.filterMap ArsEvent.successCursor).map RemoteCursor.shardId =
        l.filterMap ArsEvent.eventShardId := by
  intro l
  induction l with
  | nil => intro _; rfl
  | cons ev rest ih =>
    intro h
    obtain ⟨r, rc, rfl, hstep⟩ := fullSuccess_resp (h ev (by simp))
    have hsc : (ArsEvent.resp r).successCursor = some rc := by
      simp [ArsEvent.successCursor, eventStep, hstep]
    have hsid : rc.shardId = r.shardId := (collectStep_established_inv r rc hstep).1
    simp [List.filterMap_cons, hsc, ArsEvent.eventShardId, hsid,
      ih (fun e he => h e (by simp [he]))]

lemma successCursor_length :
    ∀ (l : List ArsEvent), (∀ ev ∈ l, fullSuccess ev = true) →
      (l.filterMap ArsEvent.successCursor).length = l.length := by
  intro l
  induction l with
  | nil => intro _; rfl
  | cons ev rest ih =>
    intro h
    obtain ⟨r, rc, rfl, hstep⟩ := fullSuccess_resp (h ev (by simp))
    have hsc : (ArsEvent.resp r).successCursor = some rc := by
      simp [ArsEvent.successCursor, eventStep, hstep]
    simp [List.filterMap_cons, hsc, ih (fun e he => h e (by simp [he]))]

lemma forall2_matches :
    ∀ (l : List ArsEvent), (∀ ev ∈ l, fullSuccess ev = true) →
      List.Forall₂ matchesResponse l (l.filterMap ArsEvent.successCursor) := by
  intro l
  induction l with
  | nil => intro _; simp
  | cons ev rest ih =>
    intro h
    obtain ⟨r, rc, rfl, hstep⟩ := fullSuccess_resp (h ev (by simp))
    have hsc : (ArsEvent.resp r).successCursor = some rc := by
      simp [ArsEvent.successCursor, eventStep, hstep]
    obtain ⟨h1, h2, rcr, h3, h4⟩ := collectStep_established_inv r rc hstep
    simp only [List.filterMap_cons, hsc]
    exact List.Forall₂.cons ⟨r, rfl, h1, h2, rcr, h3, h4⟩ (ih fun e he => h e (by simp [he]))

/-! ## Claim theorems -/

/-- C1: when every target's completion is a successfully parsed cursor
response, `establishCursors` returns normally with exactly one
`EstablishedCursor` per completion — hence, since completions correspond
one-to-one with the input `RemoteTarget`s, exactly one per target, with
matching shardId and exactly that shard's parsed response. -/
theorem establishCursors_all_success
    (nss : NamespaceString) (remotes : List (ShardId × BSONObj)) (apr : Bool)
    (ret : List ErrorCode) (stream : List ArsEvent) (ks : Nat → Except ErrorCode Unit)
    (hall : ∀ ev ∈ stream, fullSuccess ev = true)
    (hperm : (stream.filterMap ArsEvent.eventShardId).Perm (remotes.map Prod.fst)) :
    ∃ cs, establishCursors nss remotes apr ret stream ks =
        .ok cs (stream.map TraceEv.next) ∧
      cs = stream.filterMap ArsEvent.successCursor ∧
      (cs.map RemoteCursor.shardId).Perm (remotes.map Prod.fst) ∧
      List.Forall₂ matchesResponse stream cs := by
  have hnf : ∀ ev ∈ stream, eventNonFatal apr ret ev = true :=
    fun ev he => eventNonFatal_of_fullSuccess (hall ev he)
  have hcol := collectLoop_done_of_nonfatal apr ret stream [] hnf
  refine ⟨stream.filterMap ArsEvent.successCursor, ?_, rfl, ?_, ?_⟩
  · simp [establishCursors, hcol]
  · rw [successCursor_shardIds stream hall]
    exact hperm
  · exact forall2_matches stream hall

theorem establishCursors_all_success_witness :
    ∃ cs, establishCursors wNss wRemotes2 false [] [ArsEvent.resp wR1, ArsEvent.resp wR3] wKs =
        .ok cs ([ArsEvent.resp wR1, ArsEvent.resp wR3].map TraceEv.next) ∧
      cs = [ArsEvent.resp wR1, ArsEvent.resp wR3].filterMap ArsEvent.successCursor ∧
      (cs.map RemoteCursor.shardId).Perm (wRemotes2.map Prod.fst) ∧
      List.Forall₂ matchesResponse [ArsEvent.resp wR1, ArsEvent.resp wR3] cs :=
  establishCursors_all_success wNss wRemotes2 false [] _ wKs (by decide) (by decide)

/-- C2: the error surfaced to the caller is exactly the first fatal code
encountered: whatever the remaining completions hold (further remote
errors, throws from `ars.next()` during the drain), the function rethrows
that first code, never a later one. -/
theorem establishCursors_first_error_preserved
    (nss : NamespaceString) (remotes : List (ShardId × BSONObj)) (apr : Bool)
    (ret : List ErrorCode) (ks : Nat → Except ErrorCode Unit)
    (pre : List ArsEvent) (bad : ArsEvent) (c : ErrorCode) (rest : List ArsEvent)
    (hpre : ∀ ev ∈ pre, eventNonFatal apr ret ev = true)
    (hbad : eventStep bad = .thrown c)
    (hfat : (apr && isRetriable ret c) = false)
    (hsafe : ∀ ev ∈ rest, hostPresentOnSuccess ev = true) :
    ∃ cs tr, establishCursors nss remotes apr ret (pre ++ bad :: rest) ks = .threw c cs tr := by
  have hcol := collectLoop_fatal_decomp apr ret pre [] bad c rest hpre hbad hfat
  cases hdr : drainLoop (pre.filterMap ArsEvent.successCursor) rest with
  | done cs2 dtr =>
    refine ⟨cs2, (pre.map TraceEv.next ++ [TraceEv.next bad]) ++ TraceEv.stopRetrying ::
      (dtr ++ (cs2.map (killRequestFor nss)).map TraceEv.scheduleKill), ?_⟩
    simp [establishCursors, hcol, hdr]
  | interrupted cs2 dtr =>
    refine ⟨cs2, (pre.map TraceEv.next ++ [TraceEv.next bad]) ++ TraceEv.stopRetrying :: dtr, ?_⟩
    simp [establishCursors, hcol, hdr]
  | badDeref dtr =>
    exact absurd hdr (drainLoop_ne_badDeref rest _ hsafe dtr)

theorem establishCursors_first_error_preserved_witness :
    ∃ cs tr, establishCursors wNss wRemotes3 false [] ([ArsEvent.resp wR1] ++
      ArsEvent.resp wR2 :: [ArsEvent.throwEv 11601, ArsEvent.resp wR3]) wKs = .threw 5 cs tr :=
  establishCursors_first_error_preserved wNss wRemotes3 false [] wKs
    [ArsEvent.resp wR1] (ArsEvent.resp wR2) 5 [ArsEvent.throwEv 11601, ArsEvent.resp wR3]
    (by decide) (by decide) (by decide) (by decide)

/-- The kill submissions of any run are either absent (the drain was
interrupted, or no fatal error occurred) or exactly one per accumulated
cursor, in order. -/
lemma establishCursors_kills_disj (nss : NamespaceString) (remotes : List (ShardId × BSONObj))
    (apr : Bool) (ret : List ErrorCode) (stream : List ArsEvent)
    (ks : Nat → Except ErrorCode Unit) :
    killsOfTrace (establishCursors nss remotes apr ret stream ks).trace = [] ∨
    killsOfTrace (establishCursors nss remotes apr ret stream ks).trace =
      (establishCursors nss remotes apr ret stream ks).cursors.map (killRequestFor nss) := by
  obtain ⟨l0, hl0⟩ := collectLoop_trace_next apr ret stream []
  cases hcol : collectLoop apr ret [] stream with
  | done cs0 tr0 =>
    rw [hcol] at hl0
    simp only [CollectOutcome.trace] at hl0
    left
    simp [establishCursors, hcol, EstablishResult.trace, hl0, killsOfTrace_map_next]
  | badDeref tr0 =>
    rw [hcol] at hl0
    simp only [CollectOutcome.trace] at hl0
    left
    simp [establishCursors, hcol, EstablishResult.trace, hl0, killsOfTrace_map_next]
  | fatal c0 cs0 tr0 rem =>
    rw [hcol] at hl0
    simp only [CollectOutcome.trace] at hl0
    obtain ⟨l1, hl1⟩ := drainLoop_trace_next rem cs0
    cases hdr : drainLoop cs0 rem with
    | badDeref dtr =>
      rw [hdr] at hl1
      simp only [DrainOutcome.trace] at hl1
      left
      simp [establishCursors, hcol, hdr, EstablishResult.trace, hl0, hl1,
        killsOfTrace_append, killsOfTrace_cons_stop, killsOfTrace_map_next]
    | interrupted cs2 dtr =>
      rw [hdr] at hl1
      simp only [DrainOutcome.trace] at hl1
      left
      simp [establishCursors, hcol, hdr, EstablishResult.trace, hl0, hl1,
        killsOfTrace_append, killsOfTrace_cons_stop, killsOfTrace_map_next]
    | done cs2 dtr =>
      rw [hdr] at hl1
      simp only [DrainOutcome.trace] at hl1
      right
      simp [establishCursors, hcol, hdr, EstablishResult.trace, EstablishResult.cursors,
        hl0, hl1, killsOfTrace_append, killsOfTrace_cons_stop, killsOfTrace_map_next,
        killsOfTrace_map_kill, killsOfTrace_map_kill_comp]

/-- C3 counterexample: after one cursor was established and a fatal error
captured, a throw from `ars.next()` during the drain lands in the inner
catch and skips the killCursors loop entirely — the accumulated cursor
receives zero close attempts, refuting "at least one". -/
theorem establishCursors_cleanup_missing_ce :
    establishCursors wNss wRemotes2 false [] wStreamKill wKs =
      .threw 5 [wRc1]
        [TraceEv.next (.resp wR1), TraceEv.next (.resp wR2), TraceEv.stopRetrying,
          TraceEv.next (.throwEv 11601)] ∧
    killsOfTrace
        [TraceEv.next (.resp wR1), TraceEv.next (.resp wR2), TraceEv.stopRetrying,
          TraceEv.next (.throwEv 11601)] = [] := by
  constructor
  · decide
  · decide

/-- C3 (amended): every accumulated cursor receives at most one close
attempt — the kill submissions are either absent or exactly one per
accumulated cursor; and when no error interrupts the drain, each cursor
that existed when the fatal error was observed (and each drained one)
receives exactly one close attempt before the original error is re-raised. -/
theorem establishCursors_cleanup_at_most_once
    (nss : NamespaceString) (remotes : List (ShardId × BSONObj)) (apr : Bool)
    (ret : List ErrorCode) (ks : Nat → Except ErrorCode Unit)
    (pre : List ArsEvent) (bad : ArsEvent) (c : ErrorCode) (rest : List ArsEvent)
    (hpre : ∀ ev ∈ pre, eventNonFatal apr ret ev = true)
    (hbad : eventStep bad = .thrown c)
    (hfat : (apr && isRetriable ret c) = false) :
    (killsOfTrace (establishCursors nss remotes apr ret (pre ++ bad :: rest) ks).trace = [] ∨
     killsOfTrace (establishCursors nss remotes apr ret (pre ++ bad :: rest) ks).trace =
       (establishCursors nss remotes apr ret (pre ++ bad :: rest) ks).cursors.map
         (killRequestFor nss)) ∧
    ((∀ ev ∈ rest, drainSafe ev = true) →
      establishCursors nss remotes apr ret (pre ++ bad :: rest) ks =
        .threw c (pre.filterMap ArsEvent.successCursor ++ rest.filterMap ArsEvent.successCursor)
          ((pre.map TraceEv.next ++ [TraceEv.next bad]) ++ TraceEv.stopRetrying ::
            (rest.map TraceEv.next ++
              ((pre.filterMap ArsEvent.successCursor ++
                rest.filterMap ArsEvent.successCursor).map (killRequestFor nss)).map
                TraceEv.scheduleKill)) ∧
      killsOfTrace
          ((pre.map TraceEv.next ++ [TraceEv.next bad]) ++ TraceEv.stopRetrying ::
            (rest.map TraceEv.next ++
              ((pre.filterMap ArsEvent.successCursor ++
                rest.filterMap ArsEvent.successCursor).map (killRequestFor nss)).map
                TraceEv.scheduleKill)) =
        (pre.filterMap ArsEvent.successCursor ++ rest.filterMap ArsEvent.successCursor).map
          (killRequestFor nss)) := by
  constructor
  · exact establishCursors_kills_disj nss remotes apr ret (pre ++ bad :: rest) ks
  · intro hrest
    have hcol := collectLoop_fatal_decomp apr ret pre [] bad c rest hpre hbad hfat
    have hdr := drainLoop_done_of_safe rest (pre.filterMap ArsEvent.successCursor) hrest
    constructor
    · simp [establishCursors, hcol, hdr]
    · simp [killsOfTrace_append, killsOfTrace_cons_stop, killsOfTrace_map_next,
        killsOfTrace_map_kill, killsOfTrace_cons_next, killsOfTrace_map_kill_comp]

theorem establishCursors_cleanup_at_most_once_witness :
    (killsOfTrace (establishCursors wNss wRemotes3 false [] ([ArsEvent.resp wR1] ++
        ArsEvent.resp wR2 :: [ArsEvent.resp wR3]) wKs).trace = [] ∨
     killsOfTrace (establishCursors wNss wRemotes3 false [] ([ArsEvent.resp wR1] ++
        ArsEvent.resp wR2 :: [ArsEvent.resp wR3]) wKs).trace =
       (establishCursors wNss wRemotes3 false [] ([ArsEvent.resp wR1] ++
        ArsEvent.resp wR2 :: [ArsEvent.resp wR3]) wKs).cursors.map (killRequestFor wNss)) ∧
    ((∀ ev ∈ [ArsEvent.resp wR3], drainSafe ev = true) →
      establishCursors wNss wRemotes3 false [] ([ArsEvent.resp wR1] ++
          ArsEvent.resp wR2 :: [ArsEvent.resp wR3]) wKs =
        .threw 5 ([ArsEvent.resp wR1].filterMap ArsEvent.successCursor ++
            [ArsEvent.resp wR3].filterMap ArsEvent.successCursor)
          (([ArsEvent.resp wR1].map TraceEv.next ++ [TraceEv.next (ArsEvent.resp wR2)]) ++
            TraceEv.stopRetrying ::
            ([ArsEvent.resp wR3].map TraceEv.next ++
              (([ArsEvent.resp wR1].filterMap ArsEvent.successCursor ++
                [ArsEvent.resp wR3].filterMap ArsEvent.successCursor).map
                (killRequestFor wNss)).map TraceEv.scheduleKill)) ∧
      killsOfTrace
          (([ArsEvent.resp wR1].map TraceEv.next ++ [TraceEv.next (ArsEvent.resp wR2)]) ++
            TraceEv.stopRetrying ::
            ([ArsEvent.resp wR3].map TraceEv.next ++
              (([ArsEvent.resp wR1].filterMap ArsEvent.successCursor ++
                [ArsEvent.resp wR3].filterMap ArsEvent.successCursor).map
                (killRequestFor wNss)).map TraceEv.scheduleKill)) =
        ([ArsEvent.resp wR1].filterMap ArsEvent.successCursor ++
          [ArsEvent.resp wR3].filterMap ArsEvent.successCursor).map (killRequestFor wNss)) :=
  establishCursors_cleanup_at_most_once wNss wRemotes3 false [] wKs
    [ArsEvent.resp wR1] (ArsEvent.resp wR2) 5 [ArsEvent.resp wR3]
    (by decide) (by decide) (by decide)

/-- C4: with `allowPartialResults = true`, a single retriable transport
failure among otherwise fully successful completions is discarded:
the call returns normally with one cursor fewer than there are targets,
and no shardId appears twice in the result. -/
theorem establishCursors_partial_results_ok
    (nss : NamespaceString) (remotes : List (ShardId × BSONObj)) (ret : List ErrorCode)
    (ks : Nat → Except ErrorCode Unit) (pre post : List ArsEvent) (rf : Response)
    (c : ErrorCode)
    (hpre : ∀ ev ∈ pre ++ post, fullSuccess ev = true)
    (herr : rf.swResponse = .error c)
    (hret : isRetriable ret c = true)
    (hperm : ((pre ++ ArsEvent.resp rf :: post).filterMap ArsEvent.eventShardId).Perm
      (remotes.map Prod.fst))
    (hnodup : (remotes.map Prod.fst).Nodup) :
    ∃ cs tr, establishCursors nss remotes true ret (pre ++ ArsEvent.resp rf :: post) ks =
        .ok cs tr ∧
      cs.length + 1 = remotes.length ∧ (cs.map RemoteCursor.shardId).Nodup := by
  have hprel : ∀ ev ∈ pre, fullSuccess ev = true := fun e he => hpre e (by simp [he])
  have hpostl : ∀ ev ∈ post, fullSuccess ev = true := fun e he => hpre e (by simp [he])
  have hrf : eventStep (ArsEvent.resp rf) = .thrown c := by
    simp [eventStep, collectStep, herr]
  have hscrf : (ArsEvent.resp rf).successCursor = none := successCursor_eq_none_of_thrown hrf
  have hnf : ∀ ev ∈ pre ++ ArsEvent.resp rf :: post, eventNonFatal true ret ev = true := by
    intro ev hev
    rcases List.mem_append.1 hev with h | h
    · exact eventNonFatal_of_fullSuccess (hprel ev h)
    · rcases List.mem_cons.1 h with h | h
      · subst h; simp [eventNonFatal, hrf, hret]
      · exact eventNonFatal_of_fullSuccess (hpostl ev h)
  have hcol := collectLoop_done_of_nonfatal true ret (pre ++ ArsEvent.resp rf :: post) [] hnf
  have hstream_fm : (pre ++ ArsEvent.resp rf :: post).filterMap ArsEvent.successCursor =
      pre.filterMap ArsEvent.successCursor ++ post.filterMap ArsEvent.successCursor := by
    simp [List.filterMap_append, List.filterMap_cons, hscrf]
  have hstream_sid : (pre ++ ArsEvent.resp rf :: post).filterMap ArsEvent.eventShardId =
      pre.filterMap ArsEvent.eventShardId ++
        rf.shardId :: post.filterMap ArsEvent.eventShardId := by
    simp [List.filterMap_append, List.filterMap_cons, ArsEvent.eventShardId]
  have hsidp := successCursor_shardIds pre hprel
  have hsidq := successCursor_shardIds post hpostl
  have hlenp := successCursor_length pre hprel
  have hlenq := successCursor_length post hpostl
  have hsid_len_p : (pre.filterMap ArsEvent.eventShardId).length = pre.length := by
    rw [← hsidp, List.length_map, hlenp]
  have hsid_len_q : (post.filterMap ArsEvent.eventShardId).length = post.length := by
    rw [← hsidq, List.length_map, hlenq]
  have hsid_nodup : ((pre ++ ArsEvent.resp rf :: post).filterMap
      ArsEvent.eventShardId).Nodup := (hperm.nodup_iff).2 hnodup
  refine ⟨(pre ++ ArsEvent.resp rf :: post).filterMap ArsEvent.successCursor,
    (pre ++ ArsEvent.resp rf :: post).map TraceEv.next, ?_, ?_, ?_⟩
  · simp [establishCursors, hcol]
  · have hlen := hperm.length_eq
    rw [hstream_sid] at hlen
    rw [hstream_fm]
    simp only [List.length_append, List.length_cons, List.length_map] at hlen ⊢
    rw [hsid_len_p, hsid_len_q] at hlen
    rw [hlenp, hlenq]
    omega
  · rw [hstream_fm, List.map_append, hsidp, hsidq]
    rw [hstream_sid] at hsid_nodup
    exact hsid_nodup.sublist
      ((List.sublist_cons_self rf.shardId (post.filterMap ArsEvent.eventShardId)).append_left
        (pre.filterMap ArsEvent.eventShardId))

theorem establishCursors_partial_results_ok_witness :
    ∃ cs tr, establishCursors wNss wRemotes3 true wRetriable
        ([ArsEvent.resp wR1] ++ ArsEvent.resp wR2r :: [ArsEvent.resp wR3]) wKs =
        .ok cs tr ∧
      cs.length + 1 = wRemotes3.length ∧ (cs.map RemoteCursor.shardId).Nodup :=
  establishCursors_partial_results_ok wNss wRemotes3 wRetriable wKs
    [ArsEvent.resp wR1] [ArsEvent.resp wR3] wR2r 6
    (by decide) (by decide) (by decide) (by decide) (by decide)

/-- C5: a failing completion is swallowed exactly when `allowPartialResults`
holds and its code is in the retriable set; otherwise it escapes as the
fatal error with the stream suffix unconsumed — and for a non-retriable
failure the whole run is identical whichever value `allowPartialResults`
has. -/
theorem establishCursors_swallow_iff
    (nss : NamespaceString) (remotes : List (ShardId × BSONObj)) (apr : Bool)
    (ret : List ErrorCode) (ks : Nat → Except ErrorCode Unit)
    (acc : List RemoteCursor) (ev : ArsEvent) (c : ErrorCode) (rest : List ArsEvent)
    (hc : eventStep ev = .thrown c) :
    ((apr && isRetriable ret c) = true →
      collectLoop apr ret acc (ev :: rest) =
        (collectLoop apr ret acc rest).consTrace (TraceEv.next ev)) ∧
    ((apr && isRetriable ret c) = false →
      collectLoop apr ret acc (ev :: rest) = .fatal c acc [TraceEv.next ev] rest) ∧
    (isRetriable ret c = false →
      establishCursors nss remotes true ret (ev :: rest) ks =
        establishCursors nss remotes false ret (ev :: rest) ks) := by
  refine ⟨?_, ?_, ?_⟩
  · intro hsw
    simp [collectLoop, hc, hsw]
  · intro hsw
    simp [collectLoop, hc, hsw]
  · intro hret
    have h1 : collectLoop true ret acc (ev :: rest) =
        .fatal c acc [TraceEv.next ev] rest := by
      simp [collectLoop, hc, hret]
    have h2 : collectLoop false ret acc (ev :: rest) =
        .fatal c acc [TraceEv.next ev] rest := by
      simp [collectLoop, hc, hret]
    have h1' : collectLoop true ret [] (ev :: rest) =
        .fatal c [] [TraceEv.next ev] rest := by
      simp [collectLoop, hc, hret]
    have h2' : collectLoop false ret [] (ev :: rest) =
        .fatal c [] [TraceEv.next ev] rest := by
      simp [collectLoop, hc, hret]
    simp [establishCursors, h1', h2']

theorem establishCursors_swallow_iff_witness :
    ((false && isRetriable [] 5) = true →
      collectLoop false [] [] (ArsEvent.resp wR2 :: [ArsEvent.resp wR3]) =
        (collectLoop false [] [] [ArsEvent.resp wR3]).consTrace
          (TraceEv.next (ArsEvent.resp wR2))) ∧
    ((false && isRetriable [] 5) = false →
      collectLoop false [] [] (ArsEvent.resp wR2 :: [ArsEvent.resp wR3]) =
        .fatal 5 [] [TraceEv.next (ArsEvent.resp wR2)] [ArsEvent.resp wR3]) ∧
    (isRetriable [] 5 = false →
      establishCursors wNss wRemotes2 true [] (ArsEvent.resp wR2 :: [ArsEvent.resp wR3]) wKs =
        establishCursors wNss wRemotes2 false [] (ArsEvent.resp wR2 :: [ArsEvent.resp wR3]) wKs) :=
  establishCursors_swallow_iff wNss wRemotes2 false [] wKs [] (ArsEvent.resp wR2) 5
    [ArsEvent.resp wR3] (by decide)

/-- C6 counterexample: after a fatal failure, a throw from `ars.next()`
during the drain stops the fetching before the engine is exhausted — the
later completion of `wR1`, although it would parse to a cursor, is never
fetched, never appended, and never cleaned up. -/
theorem establishCursors_drain_skipped_ce :
    establishCursors wNss wRemotes2 false [] wStreamDrain wKs =
      .threw 5 []
        [TraceEv.next (.resp wR2), TraceEv.stopRetrying, TraceEv.next (.throwEv 11601)] ∧
    fullSuccess (ArsEvent.resp wR1) = true ∧
    ArsEvent.resp wR1 ∉ consumedOf
      [TraceEv.next (.resp wR2), TraceEv.stopRetrying, TraceEv.next (.throwEv 11601)] := by
  refine ⟨by decide, by decide, by decide⟩

/-- C6 (amended): upon a fatal failure the coordinator stops retrying
before any further fetch; then, provided draining raises no error, it
fetches the remaining completions to exhaustion, appending every further
successfully parsed cursor to the established list, each of which is then
included in the cleanup submissions. -/
theorem establishCursors_stop_then_drain
    (nss : NamespaceString) (remotes : List (ShardId × BSONObj)) (apr : Bool)
    (ret : List ErrorCode) (ks : Nat → Except ErrorCode Unit)
    (pre : List ArsEvent) (bad : ArsEvent) (c : ErrorCode) (rest : List ArsEvent)
    (hpre : ∀ ev ∈ pre, eventNonFatal apr ret ev = true)
    (hbad : eventStep bad = .thrown c)
    (hfat : (apr && isRetriable ret c) = false)
    (hrest : ∀ ev ∈ rest, drainSafe ev = true) :
    establishCursors nss remotes apr ret (pre ++ bad :: rest) ks =
      .threw c
        (pre.filterMap ArsEvent.successCursor ++ rest.filterMap ArsEvent.successCursor)
        ((pre.map TraceEv.next ++ [TraceEv.next bad]) ++ TraceEv.stopRetrying ::
          (rest.map TraceEv.next ++
            ((pre.filterMap ArsEvent.successCursor ++
              rest.filterMap ArsEvent.successCursor).map (killRequestFor nss)).map
              TraceEv.scheduleKill)) := by
  have hcol := collectLoop_fatal_decomp apr ret pre [] bad c rest hpre hbad hfat
  have hdr := drainLoop_done_of_safe rest (pre.filterMap ArsEvent.successCursor) hrest
  simp [establishCursors, hcol, hdr]

theorem establishCursors_stop_then_drain_witness :
    establishCursors wNss wRemotes2 false [] ([] ++ ArsEvent.resp wR2 :: [ArsEvent.resp wR3]) wKs =
      .threw 5
        (List.filterMap ArsEvent.successCursor [] ++
          [ArsEvent.resp wR3].filterMap ArsEvent.successCursor)
        ((List.map TraceEv.next [] ++ [TraceEv.next (ArsEvent.resp wR2)]) ++
          TraceEv.stopRetrying ::
          ([ArsEvent.resp wR3].map TraceEv.next ++
            ((List.filterMap ArsEvent.successCursor [] ++
              [ArsEvent.resp wR3].filterMap ArsEvent.successCursor).map
              (killRequestFor wNss)).map TraceEv.scheduleKill)) :=
  establishCursors_stop_then_drain wNss wRemotes2 false [] wKs
    [] (ArsEvent.resp wR2) 5 [ArsEvent.resp wR3]
    (by decide) (by decide) (by decide) (by decide)

/-- C7: the run's outcome is independent of the statuses the executor
returns for the killCursors submissions (they are discarded unseen), and
every killCursors command submitted is addressed to some accumulated
cursor's recorded host and the call's namespace and carries exactly that
cursor's single cursorId. -/
theorem establishCursors_kill_fire_and_forget
    (nss : NamespaceString) (remotes : List (ShardId × BSONObj)) (apr : Bool)
    (ret : List ErrorCode) (stream : List ArsEvent)
    (ks1 ks2 : Nat → Except ErrorCode Unit) :
    establishCursors nss remotes apr ret stream ks1 =
      establishCursors nss remotes apr ret stream ks2 ∧
    (∀ k ∈ killsOfTrace (establishCursors nss remotes apr ret stream ks1).trace,
      ∃ rc ∈ (establishCursors nss remotes apr ret stream ks1).cursors,
        k.target = rc.hostAndPort ∧ k.dbname = nss.db ∧
        k.cmdObj = BSONObj.killCursors nss [rc.cursorResponse.cursorId]) := by
  constructor
  · rfl
  · intro k hk
    rcases establishCursors_kills_disj nss remotes apr ret stream ks1 with h | h
    · rw [h] at hk
      simp at hk
    · rw [h] at hk
      rw [List.mem_map] at hk
      obtain ⟨rc, hrc, hkeq⟩ := hk
      exact ⟨rc, hrc, by simp [← hkeq, killRequestFor, KillCursorsRequest.toBSON]⟩

theorem establishCursors_kill_fire_and_forget_witness :
    establishCursors wNss wRemotes2 false [] [ArsEvent.resp wR2, ArsEvent.resp wR3] wKs =
      establishCursors wNss wRemotes2 false [] [ArsEvent.resp wR2, ArsEvent.resp wR3] wKsBad ∧
    (∃ rc ∈ (establishCursors wNss wRemotes2 false []
        [ArsEvent.resp wR2, ArsEvent.resp wR3] wKs).cursors,
      (killRequestFor wNss wRc3).target = rc.hostAndPort ∧
      (killRequestFor wNss wRc3).dbname = wNss.db ∧
      (killRequestFor wNss wRc3).cmdObj = BSONObj.killCursors wNss [rc.cursorResponse.cursorId]) :=
  ⟨(establishCursors_kill_fire_and_forget wNss wRemotes2 false []
      [ArsEvent.resp wR2, ArsEvent.resp wR3] wKs wKsBad).1,
   (establishCursors_kill_fire_and_forget wNss wRemotes2 false []
      [ArsEvent.resp wR2, ArsEvent.resp wR3] wKs wKsBad).2
     (killRequestFor wNss wRc3) (by decide)⟩

/-- C8: a delivered-but-unparsable response and a transport failure with
the same code produce the same thrown classification and are handled by
the collection loop identically (up to the event recorded in the trace):
the same retriable test, the same `allowPartialResults` gating. -/
theorem establishCursors_parse_as_transport
    (apr : Bool) (ret : List ErrorCode) (acc : List RemoteCursor) (sid : ShardId)
    (hp : Option HostAndPort) (data : BSONObj) (c : ErrorCode) (rest : List ArsEvent)
    (hparse : CursorResponse.parseFromBSON data = .error c) :
    eventStep (ArsEvent.resp ⟨sid, .ok ⟨data⟩, hp⟩) = .thrown c ∧
    eventStep (ArsEvent.resp ⟨sid, .error c, hp⟩) = .thrown c ∧
    (collectLoop apr ret acc (ArsEvent.resp ⟨sid, .ok ⟨data⟩, hp⟩ :: rest)).data =
      (collectLoop apr ret acc (ArsEvent.resp ⟨sid, .error c, hp⟩ :: rest)).data := by
  have h1 : eventStep (ArsEvent.resp ⟨sid, .ok ⟨data⟩, hp⟩) = .thrown c := by
    simp [eventStep, collectStep, hparse]
  have h2 : eventStep (ArsEvent.resp ⟨sid, .error c, hp⟩) = .thrown c := by
    simp [eventStep, collectStep]
  refine ⟨h1, h2, ?_⟩
  by_cases hsw : (apr && isRetriable ret c) = true
  · simp [collectLoop, h1, h2, hsw, CollectOutcome.data_consTrace]
  · have hsw' : (apr && isRetriable ret c) = false := by simpa using hsw
    simp [collectLoop, h1, h2, hsw', CollectOutcome.data]

theorem establishCursors_parse_as_transport_witness :
    eventStep (ArsEvent.resp ⟨"shard9", .ok ⟨.malformed 7⟩, some "host9:27017"⟩) = .thrown 7 ∧
    eventStep (ArsEvent.resp ⟨"shard9", .error 7, some "host9:27017"⟩) = .thrown 7 ∧
    (collectLoop false [] []
        (ArsEvent.resp ⟨"shard9", .ok ⟨.malformed 7⟩, some "host9:27017"⟩ :: [])).data =
      (collectLoop false [] []
        (ArsEvent.resp ⟨"shard9", .error 7, some "host9:27017"⟩ :: [])).data :=
  establishCursors_parse_as_transport false [] [] "shard9" (some "host9:27017")
    (.malformed 7) 7 [] (by decide)

/-- C9: the optional host is dereferenced only after a successful parse, so
when every completion with a successful transport outcome carries a present
`shardHostAndPort`, no run hits the undefined dereference. -/
theorem establishCursors_deref_safe
    (nss : NamespaceString) (remotes : List (ShardId × BSONObj)) (apr : Bool)
    (ret : List ErrorCode) (stream : List ArsEvent) (ks : Nat → Except ErrorCode Unit)
    (h : ∀ ev ∈ stream, hostPresentOnSuccess ev = true) :
    (establishCursors nss remotes apr ret stream ks).isUB = false := by
  cases hcol : collectLoop apr ret [] stream with
  | done cs tr => simp [establishCursors, hcol, EstablishResult.isUB]
  | badDeref tr => exact absurd hcol (collectLoop_ne_badDeref apr ret stream [] h tr)
  | fatal c cs tr rem =>
    obtain ⟨pre, bad, hdecomp⟩ := collectLoop_fatal_remaining apr ret stream [] c cs tr rem hcol
    have hrem : ∀ ev ∈ rem, hostPresentOnSuccess ev = true := by
      intro ev hev
      exact h ev (by rw [hdecomp]; simp [hev])
    cases hdr : drainLoop cs rem with
    | done cs2 dtr => simp [establishCursors, hcol, hdr, EstablishResult.isUB]
    | interrupted cs2 dtr => simp [establishCursors, hcol, hdr, EstablishResult.isUB]
    | badDeref dtr => exact absurd hdr (drainLoop_ne_badDeref rem cs hrem dtr)

theorem establishCursors_deref_safe_witness :
    (establishCursors wNss wRemotes2 false [] wStreamKill wKs).isUB = false :=
  establishCursors_deref_safe wNss wRemotes2 false [] wStreamKill wKs (by decide)

/-- C10: on every run that avoids the undefined dereference, the final
cursor list is exactly the cursors of the successfully parsed completions
that were consumed, in order — a completion that fails (transport error,
parse failure, or a throw from `ars.next()`), whether swallowed, fatal, or
seen during the drain, contributes no entry. -/
theorem establishCursors_no_phantom_entries
    (nss : NamespaceString) (remotes : List (ShardId × BSONObj)) (apr : Bool)
    (ret : List ErrorCode) (stream : List ArsEvent) (ks : Nat → Except ErrorCode Unit)
    (h : (establishCursors nss remotes apr ret stream ks).isUB = false) :
    (establishCursors nss remotes apr ret stream ks).cursors =
      (consumedOf (establishCursors nss remotes apr ret stream ks).trace).filterMap
        ArsEvent.successCursor := by
  cases hcol : collectLoop apr ret [] stream with
  | badDeref tr => simp [establishCursors, hcol, EstablishResult.isUB] at h
  | done cs tr =>
    have hcs := (collectLoop_cursors_consumed apr ret stream []).1 cs tr hcol
    simp [establishCursors, hcol, EstablishResult.cursors, EstablishResult.trace, hcs]
  | fatal c cs tr rem =>
    have hcs := (collectLoop_cursors_consumed apr ret stream []).2 c cs tr rem hcol
    cases hdr : drainLoop cs rem with
    | badDeref dtr => simp [establishCursors, hcol, hdr, EstablishResult.isUB] at h
    | done cs2 dtr =>
      have hcs2 := (drainLoop_cursors_consumed rem cs).1 cs2 dtr hdr
      have hred : establishCursors nss remotes apr ret stream ks =
          .threw c cs2 (tr ++ TraceEv.stopRetrying ::
            (dtr ++ (cs2.map (killRequestFor nss)).map TraceEv.scheduleKill)) := by
        simp [establishCursors, hcol, hdr]
      rw [hred]
      simp only [EstablishResult.cursors, EstablishResult.trace, consumedOf_append,
        consumedOf_cons_stop, List.filterMap_append, List.map_map, consumedOf_map_kill_comp,
        List.append_nil]
      rw [hcs2, hcs]
      simp
    | interrupted cs2 dtr =>
      have hcs2 := (drainLoop_cursors_consumed rem cs).2 cs2 dtr hdr
      have hred : establishCursors nss remotes apr ret stream ks =
          .threw c cs2 (tr ++ TraceEv.stopRetrying :: dtr) := by
        simp [establishCursors, hcol, hdr]
      rw [hred]
      simp only [EstablishResult.cursors, EstablishResult.trace, consumedOf_append,
        consumedOf_cons_stop, List.filterMap_append]
      rw [hcs2, hcs]
      simp

theorem establishCursors_no_phantom_entries_witness :
    (establishCursors wNss wRemotes3 false wRetriable
        [ArsEvent.resp wR1, ArsEvent.resp wR2, ArsEvent.resp wR3] wKs).cursors =
      (consumedOf (establishCursors wNss wRemotes3 false wRetriable
        [ArsEvent.resp wR1, ArsEvent.resp wR2, ArsEvent.resp wR3] wKs).trace).filterMap
        ArsEvent.successCursor :=
  establishCursors_no_phantom_entries wNss wRemotes3 false wRetriable
    [ArsEvent.resp wR1, ArsEvent.resp wR2, ArsEvent.resp wR3] wKs (by decide)

end CMongo
